import Mathlib

/-!
Verification development for the TruthByte storage-diagnosis engine.

The definitions below are a shallow embedding of the Rust sources:
  * `src/core_logic.rs` — deterministic content generator (SplitMix64),
    block verification, failure-sample analysis, report generation;
  * `src/io_controller/write.rs` — the write-phase driver loop;
  * `src/io_controller/verify.rs` — the verify-phase driver loop;
  * `src/io_controller/probe.rs` — quick-probe anchor computation;
  * `src/io_controller/direct_io.rs` — alignment helpers.

Machine integers (`u64`) are modelled as `Nat` with explicit `% 2^64`
where the Rust code relies on wrapping arithmetic; `f64` scores are
modelled exactly over `ℚ`.  Fallible operations return `Option` /
`Except`.  Device I/O is modelled by explicit oracles (one outcome per
I/O call) and the phase loops take a fuel argument; `none` means the
fuel ran out before the loop finished.
-/

set_option maxRecDepth 100000

namespace TruthByte

/-- 2^64, the modulus of Rust `u64` wrapping arithmetic. -/
def U64MOD : Nat := 18446744073709551616

/-- Wrapping `u64` addition. -/
def wadd (a b : Nat) : Nat := (a + b) % U64MOD

/-- Wrapping `u64` multiplication. -/
def wmul (a b : Nat) : Nat := (a * b) % U64MOD

/-- `core_logic.rs::generate_seed`: SplitMix64 avalanche mix of the offset. -/
def generate_seed (offset : Nat) : Nat :=
  let z0 := offset % U64MOD
  let z1 := wadd z0 0x9E3779B97F4A7C15
  let z2 := wmul (Nat.xor z1 (z1 >>> 30)) 0xBF58476D1CE4E5B9
  let z3 := wmul (Nat.xor z2 (z2 >>> 27)) 0x94D049BB133111EB
  Nat.xor z3 (z3 >>> 31)

/-- `core_logic.rs::SplitMix64`: generator state (`state`, byte `buffer`,
`available` bytes left in the buffer). -/
structure SplitMix64 where
  state : Nat
  buffer : Nat
  available : Nat
deriving DecidableEq, Repr

/-- `SplitMix64::new`. -/
def SplitMix64.new (seed : Nat) : SplitMix64 :=
  { state := seed % U64MOD, buffer := 0, available := 0 }

/-- `SplitMix64::next_u64`: advance the state by the golden-ratio constant and
mix it; returns the output word and the new state. -/
def SplitMix64.next_u64 (s : SplitMix64) : Nat × SplitMix64 :=
  let st := wadd s.state 0x9E3779B97F4A7C15
  let z1 := wmul (Nat.xor st (st >>> 30)) 0xBF58476D1CE4E5B9
  let z2 := wmul (Nat.xor z1 (z1 >>> 27)) 0x94D049BB133111EB
  (Nat.xor z2 (z2 >>> 31), { s with state := st })

/-- `SplitMix64::next_u8`: refill the 8-byte buffer when empty, then emit its
low byte. -/
def SplitMix64.next_u8 (s : SplitMix64) : Nat × SplitMix64 :=
  let s1 :=
    if s.available = 0 then
      let ws := s.next_u64
      { ws.2 with buffer := ws.1, available := 8 }
    else s
  (s1.buffer % 256,
   { s1 with buffer := s1.buffer >>> 8, available := s1.available - 1 })

/-- The byte stream produced by pulling `n` bytes out of a generator state
(the loop body of `core_logic.rs::fill_block`). -/
def genBytes : SplitMix64 → Nat → List Nat
  | _, 0 => []
  | s, n + 1 => (s.next_u8).1 :: genBytes (s.next_u8).2 n

/-- `core_logic.rs::fill_block`, returning the `len` bytes written into the
buffer at `offset`. -/
def fill_block (offset len : Nat) : List Nat :=
  genBytes (SplitMix64.new (generate_seed offset)) len

/-- The comparison loop of `core_logic.rs::verify_block`: `idx` is the
enumeration index of the head of the remaining buffer; `none` models `Ok(())`
and `some i` models `Err(i)`. -/
def verifyFrom (s : SplitMix64) (idx : Nat) : List Nat → Option Nat
  | [] => none
  | b :: rest =>
    if b = (s.next_u8).1 then verifyFrom (s.next_u8).2 (idx + 1) rest
    else some idx

/-- `core_logic.rs::verify_block`: regenerate the stream at `offset` and
compare byte-by-byte, returning the first mismatching index. -/
def verify_block (offset : Nat) (buffer : List Nat) : Option Nat :=
  verifyFrom (SplitMix64.new (generate_seed offset)) 0 buffer

/-- `core_logic.rs::DriveHealthStatus`. -/
inductive DriveHealthStatus where
  | Healthy
  | FakeCapacity
  | PhysicalCorruption
  | DataLoss
deriving DecidableEq, Repr

/-- `core_logic.rs::analyze_failure_sample`. -/
def analyze_failure_sample (expected actual : List Nat) :
    Option DriveHealthStatus :=
  if expected = [] ∨ expected.length ≠ actual.length then none
  else if expected = actual then none
  else if actual.all (fun b => b == 0) && expected.any (fun b => b != 0) then
    some DriveHealthStatus.FakeCapacity
  else some DriveHealthStatus.PhysicalCorruption

/-- `core_logic.rs::status_severity`. -/
def status_severity : DriveHealthStatus → Nat
  | DriveHealthStatus.Healthy => 0
  | DriveHealthStatus.PhysicalCorruption => 1
  | DriveHealthStatus.DataLoss => 2
  | DriveHealthStatus.FakeCapacity => 3

/-- Round a scaled significand to an integer, ties to even (the IEEE-754
default rounding used by every Rust `f64` operation). -/
def roundMantissa (s : ℚ) : ℤ :=
  if s - ⌊s⌋ < 1/2 then ⌊s⌋
  else if 1/2 < s - ⌊s⌋ then ⌊s⌋ + 1
  else if ⌊s⌋ % 2 = 0 then ⌊s⌋ else ⌊s⌋ + 1

/-- Round a positive rational to 53 significant bits, ties to even: the
significand is scaled into `[2^52, 2^53)` and rounded.  The exponent is
unbounded, which agrees exactly with IEEE-754 binary64 on every value
`generate_report` computes (magnitudes between `2^-64` and `100·2^64`, or
zero): none of them overflows or goes subnormal. -/
def roundPosQ (q : ℚ) : ℚ :=
  (roundMantissa (q / 2 ^ (Int.log 2 q - 52)) : ℚ) * 2 ^ (Int.log 2 q - 52)

/-- Round-to-nearest-even of a rational to an `f64` value (represented by the
exact rational it denotes). -/
def roundQ (q : ℚ) : ℚ :=
  if q = 0 then 0 else if q < 0 then -roundPosQ (-q) else roundPosQ q

/-- Rust `u64 as f64` (round to nearest, ties to even). -/
def to_f64 (n : Nat) : ℚ := roundQ (n : ℚ)

/-- `f64` division: exact quotient, then rounding. -/
def fdiv (a b : ℚ) : ℚ := roundQ (a / b)

/-- `f64` multiplication: exact product, then rounding. -/
def fmul (a b : ℚ) : ℚ := roundQ (a * b)

/-- `core_logic.rs::DiagnosisReport`; `health_score` holds the exact rational
value of the Rust `f64`. -/
structure DiagnosisReport where
  total_capacity : Nat
  tested_bytes : Nat
  valid_bytes : Nat
  error_count : Nat
  health_score : ℚ
  status : DriveHealthStatus
  conclusion : String
deriving DecidableEq, Repr

/-- The status-keyed base sentence of the conclusion in
`core_logic.rs::generate_report`. -/
def conclusionBase : DriveHealthStatus → String
  | DriveHealthStatus.Healthy => "No inconsistencies detected."
  | DriveHealthStatus.FakeCapacity =>
      "Warning: detected zero-filled data; possible fake capacity."
  | DriveHealthStatus.PhysicalCorruption =>
      "Warning: detected random corruption or inconsistent data."
  | DriveHealthStatus.DataLoss =>
      "Warning: read errors or missing data detected."

/-- `core_logic.rs::generate_report`.  The `u64` sum of the two error tallies
wraps; the `f64` ratio/clamp arithmetic (`valid_bytes as f64 / total_capacity
as f64 * 100.0`, then `clamp(0.0, 100.0)`) is modelled with
round-to-nearest-even after each conversion and operation; the clamp and
the `100.0` literal are exact. -/
def generate_report (total_capacity tested_bytes valid_bytes mismatch_blocks
    read_error_blocks : Nat) (sample_status : Option DriveHealthStatus) :
    DiagnosisReport :=
  let error_count := wadd mismatch_blocks read_error_blocks
  let status0 :=
    if error_count = 0 then DriveHealthStatus.Healthy
    else DriveHealthStatus.PhysicalCorruption
  let status1 :=
    if read_error_blocks > 0 then DriveHealthStatus.DataLoss else status0
  let status :=
    match sample_status with
    | some sample =>
        if status_severity sample > status_severity status1 then sample
        else status1
    | none => status1
  let health_score : ℚ :=
    if total_capacity = 0 then 0
    else
      min (max (fmul (fdiv (to_f64 valid_bytes) (to_f64 total_capacity)) 100)
        0) 100
  let concl0 := conclusionBase status ++ " Errors: " ++ toString error_count
      ++ "."
  let conclusion :=
    if tested_bytes < total_capacity then
      concl0 ++ " Verification ended early after " ++ toString tested_bytes
        ++ " / " ++ toString total_capacity ++ " bytes."
    else concl0
  { total_capacity := total_capacity
    tested_bytes := tested_bytes
    valid_bytes := valid_bytes
    error_count := error_count
    health_score := health_score
    status := status
    conclusion := conclusion }

/-- The concrete buffer of the spec's round-trip test: 256 generated bytes at
offset 500 with byte 10 incremented by 1 modulo 256 (`wrapping_add(1)`). -/
def mutated500 : List Nat :=
  (fill_block 500 256).set 10 (((fill_block 500 256).getD 10 0 + 1) % 256)

lemma genBytes_length (s : SplitMix64) (n : Nat) : (genBytes s n).length = n := by
  induction n generalizing s with
  | zero => rfl
  | succ n ih => simp [genBytes, ih]

lemma verifyFrom_shift (buf : List Nat) : ∀ (s : SplitMix64) (idx : Nat),
    verifyFrom s idx buf = (verifyFrom s 0 buf).map (· + idx) := by
  induction buf with
  | nil => intro s idx; rfl
  | cons b rest ih =>
    intro s idx
    by_cases h : b = (s.next_u8).1
    · simp only [verifyFrom, if_pos h, ih (s.next_u8).2 (idx + 1),
        ih (s.next_u8).2 1]
      cases hv : verifyFrom (s.next_u8).2 0 rest with
      | none => rfl
      | some a => simp only [Option.map_some']; congr 1; omega
    · simp [verifyFrom, if_neg h]

lemma verifyFrom_none_iff (buf : List Nat) : ∀ s : SplitMix64,
    verifyFrom s 0 buf = none ↔ buf = genBytes s buf.length := by
  induction buf with
  | nil => intro s; simp [verifyFrom, genBytes]
  | cons b rest ih =>
    intro s
    by_cases h : b = (s.next_u8).1
    · simp only [verifyFrom, if_pos h, verifyFrom_shift rest (s.next_u8).2 1,
        List.length_cons, genBytes, Option.map_eq_none', ih (s.next_u8).2,
        List.cons.injEq]
      tauto
    · simp [verifyFrom, if_neg h, genBytes, List.cons.injEq, h]

lemma verifyFrom_some (buf : List Nat) : ∀ (s : SplitMix64) (i : Nat),
    verifyFrom s 0 buf = some i →
      i < buf.length ∧ buf[i]? ≠ (genBytes s buf.length)[i]? ∧
        ∀ j, j < i → buf[j]? = (genBytes s buf.length)[j]? := by
  induction buf with
  | nil => intro s i h; simp [verifyFrom] at h
  | cons b rest ih =>
    intro s i h
    by_cases hb : b = (s.next_u8).1
    · rw [show verifyFrom s 0 (b :: rest)
          = verifyFrom (s.next_u8).2 1 rest by simp [verifyFrom, hb],
        verifyFrom_shift rest (s.next_u8).2 1] at h
      obtain ⟨a, hv, ha⟩ := Option.map_eq_some'.mp h
      obtain ⟨h1, h2, h3⟩ := ih (s.next_u8).2 a hv
      subst ha
      refine ⟨by simpa using Nat.succ_lt_succ h1, ?_, ?_⟩
      · simpa [genBytes, List.length_cons] using h2
      · intro j hj
        cases j with
        | zero => simp [genBytes, hb]
        | succ k =>
          have := h3 k (by omega)
          simpa [genBytes, List.length_cons] using this
    · rw [show verifyFrom s 0 (b :: rest) = some 0 by
          simp [verifyFrom, hb]] at h
      obtain rfl : (0 : Nat) = i := Option.some.inj h
      exact ⟨by simp, by simp [genBytes, hb], by omega⟩

/-- C1: round-trip of the content generator.  `verify_block` returns `Ok`
(`none`) exactly when the buffer equals the generated stream of the same
length at the same offset; on divergence it returns the index of the first
mismatching byte; and concretely, filling 256 bytes at offset 500 and adding
1 (mod 256) to byte 10 yields `Err 10`. -/
theorem C1_verify_fill_roundtrip :
    (∀ offset buf, verify_block offset buf = none
        ↔ buf = fill_block offset buf.length) ∧
    (∀ offset buf i, verify_block offset buf = some i →
        i < buf.length ∧ buf[i]? ≠ (fill_block offset buf.length)[i]? ∧
          ∀ j, j < i → buf[j]? = (fill_block offset buf.length)[j]?) ∧
    verify_block 500 mutated500 = some 10 := by
  refine ⟨?_, ?_, by decide⟩
  · intro offset buf
    exact verifyFrom_none_iff buf (SplitMix64.new (generate_seed offset))
  · intro offset buf i h
    exact verifyFrom_some buf (SplitMix64.new (generate_seed offset)) i h

/-- Witness for C1: the implication branch applied at the concrete mutated
buffer, discharging its hypothesis by evaluation. -/
theorem C1_verify_fill_roundtrip_witness : 10 < mutated500.length :=
  (C1_verify_fill_roundtrip.2.1 500 mutated500 10 (by decide)).1

/-- Status escalation as the spec (§4.7) words it: base status from the two
tallies, before any sample classification is considered.  Spec-side
definition, to be compared with `generate_report`. -/
def spec_base_status (mismatch_blocks read_error_blocks : Nat) :
    DriveHealthStatus :=
  if read_error_blocks > 0 then DriveHealthStatus.DataLoss
  else if mismatch_blocks + read_error_blocks = 0 then DriveHealthStatus.Healthy
  else DriveHealthStatus.PhysicalCorruption

/-- Status escalation as the spec words it, sample classification included:
the sample replaces the base status exactly when its severity is strictly
higher. -/
def spec_status (mismatch_blocks read_error_blocks : Nat)
    (sample : Option DriveHealthStatus) : DriveHealthStatus :=
  match sample with
  | none => spec_base_status mismatch_blocks read_error_blocks
  | some x =>
      if status_severity x
          > status_severity (spec_base_status mismatch_blocks read_error_blocks)
      then x
      else spec_base_status mismatch_blocks read_error_blocks

/-- C2: status derivation of the report generator.  For `u64` tallies whose
sum does not overflow, `error_count` is the sum of the two tallies and the
status follows the spec's escalation order (Healthy when no errors,
PhysicalCorruption otherwise, DataLoss as soon as a read error occurred, and a
sample classification adopted exactly when strictly more severe); concretely
an all-zero mismatched block against nonzero expected bytes escalates a
PhysicalCorruption base status to FakeCapacity. -/
theorem C2_report_status_derivation (tc tb vb m r : Nat)
    (s : Option DriveHealthStatus) (hmr : m + r < U64MOD) :
    (generate_report tc tb vb m r s).error_count = m + r ∧
    (generate_report tc tb vb m r s).status = spec_status m r s ∧
    spec_base_status 1 0 = DriveHealthStatus.PhysicalCorruption ∧
    (generate_report 4096 4096 0 1 0
        (analyze_failure_sample [1, 2] [0, 0])).status
      = DriveHealthStatus.FakeCapacity := by
  have hec : wadd m r = m + r := Nat.mod_eq_of_lt hmr
  refine ⟨?_, ?_, by decide, by decide⟩
  · simp [generate_report, hec]
  · simp only [generate_report, hec, spec_status, spec_base_status]
    cases s with
    | none =>
      by_cases h1 : r > 0 <;> by_cases h2 : m + r = 0 <;>
        simp [h1, h2]
    | some x =>
      by_cases h1 : r > 0 <;> by_cases h2 : m + r = 0 <;>
        cases x <;> simp [h1, h2, status_severity]

/-- Witness for C2 at concrete tallies. -/
theorem C2_report_status_derivation_witness :
    (generate_report 8192 8192 4096 1 1 none).error_count = 2 :=
  (C2_report_status_derivation 8192 8192 4096 1 1 none (by decide)).1

/-- C6: failure-sample classification.  For equal-length, nonempty, differing
byte slices, the analyzer returns FakeCapacity when the actual bytes are all
zero while the expected bytes contain a nonzero byte, and PhysicalCorruption
in every other differing case. -/
theorem C6_analyze_failure_sample_rule (expected actual : List Nat)
    (hlen : expected.length = actual.length) (hne : expected ≠ [])
    (hdiff : expected ≠ actual) :
    ((∀ b ∈ actual, b = 0) → (∃ b ∈ expected, b ≠ 0) →
      analyze_failure_sample expected actual
        = some DriveHealthStatus.FakeCapacity) ∧
    (¬ ((∀ b ∈ actual, b = 0) ∧ ∃ b ∈ expected, b ≠ 0) →
      analyze_failure_sample expected actual
        = some DriveHealthStatus.PhysicalCorruption) := by
  constructor
  · intro hzero hnz
    have hall : actual.all (fun b => b == 0) = true := by
      simpa [List.all_eq_true] using hzero
    have hany : expected.any (fun b => b != 0) = true := by
      simpa [List.any_eq_true] using hnz
    simp [analyze_failure_sample, hlen, hne, hdiff, hall, hany]
  · intro hnot
    have : ¬ (actual.all (fun b => b == 0) && expected.any (fun b => b != 0))
        = true := by
      simpa [List.all_eq_true, List.any_eq_true] using hnot
    simp [analyze_failure_sample, hlen, hne, hdiff, this]

/-- Witness for C6: a concrete all-zero actual block against nonzero expected
bytes classifies as FakeCapacity. -/
theorem C6_analyze_failure_sample_rule_witness :
    analyze_failure_sample [1, 2] [0, 0] = some DriveHealthStatus.FakeCapacity :=
  (C6_analyze_failure_sample_rule [1, 2] [0, 0] (by decide) (by decide)
    (by decide)).1 (by decide) ⟨1, by decide, by decide⟩

/-- C7: the seed derived from offset 0 is non-zero, and filling any nonempty
buffer at offset 0 does not produce the degenerate all-zero stream (its first
byte is 111). -/
theorem C7_offset_zero_not_degenerate :
    generate_seed 0 ≠ 0 ∧
    ∀ n, 0 < n → fill_block 0 n ≠ List.replicate n 0 := by
  refine ⟨by decide, ?_⟩
  intro n hn
  match n, hn with
  | (m + 1), _ =>
    have h111 : ((SplitMix64.new (generate_seed 0)).next_u8).1 = 111 := by
      decide
    simp [fill_block, genBytes, List.replicate_succ, h111]

/-- Witness for C7 at buffer length 1. -/
theorem C7_offset_zero_not_degenerate_witness :
    fill_block 0 1 ≠ List.replicate 1 0 :=
  C7_offset_zero_not_degenerate.2 1 (by decide)

lemma generate_report_health_score (tc tb vb m r : Nat)
    (s : Option DriveHealthStatus) :
    (generate_report tc tb vb m r s).health_score =
      if tc = 0 then 0
      else min (max (fmul (fdiv (to_f64 vb) (to_f64 tc)) 100) 0) 100 := rfl

lemma roundMantissa_ge_floor (s : ℚ) : ⌊s⌋ ≤ roundMantissa s := by
  unfold roundMantissa
  split_ifs <;> omega

lemma roundPosQ_pos (q : ℚ) (hq : 0 < q) : 0 < roundPosQ q := by
  have h2 : (0:ℚ) < 2 ^ (Int.log 2 q - 52) := by positivity
  have hlow : (2:ℚ) ^ (Int.log 2 q) ≤ q := Int.zpow_log_le_self (by norm_num) hq
  have hs : (2:ℚ) ^ (52:ℤ) ≤ q / 2 ^ (Int.log 2 q - 52) := by
    rw [le_div_iff₀ h2, ← zpow_add₀ (by norm_num : (2:ℚ) ≠ 0)]
    have he : (52 : ℤ) + (Int.log 2 q - 52) = Int.log 2 q := by ring
    rw [he]
    exact hlow
  have hfl : (2 ^ 52 : ℤ) ≤ ⌊q / 2 ^ (Int.log 2 q - 52)⌋ := by
    rw [Int.le_floor]
    exact le_trans (by norm_num) hs
  have hm : (0:ℤ) < roundMantissa (q / 2 ^ (Int.log 2 q - 52)) :=
    lt_of_lt_of_le (by positivity) (le_trans hfl (roundMantissa_ge_floor _))
  unfold roundPosQ
  exact mul_pos (by exact_mod_cast hm) h2

lemma roundQ_pos (q : ℚ) (hq : 0 < q) : 0 < roundQ q := by
  unfold roundQ
  rw [if_neg (ne_of_gt hq), if_neg (not_lt.mpr (le_of_lt hq))]
  exact roundPosQ_pos q hq

lemma to_f64_pos (n : Nat) (hn : 0 < n) : 0 < to_f64 n :=
  roundQ_pos _ (by exact_mod_cast hn)

lemma roundQ_one : roundQ (1:ℚ) = 1 := by
  unfold roundQ roundPosQ roundMantissa
  rw [Int.log_one_right]
  norm_num

lemma roundQ_hundred : roundQ (100:ℚ) = 100 := by
  have hnat : Nat.log 2 100 = 6 := by
    have h1 : 2^6 ≤ 100 := by norm_num
    have h2 : 100 < 2^(6+1) := by norm_num
    exact Nat.log_eq_of_pow_le_of_lt_pow h1 h2
  have hlog : Int.log 2 (100:ℚ) = 6 := by
    rw [show (100:ℚ) = ((100:ℕ):ℚ) by norm_num, Int.log_natCast, hnat]
    norm_num
  unfold roundQ roundPosQ roundMantissa
  rw [hlog]
  norm_num

lemma to_f64_pow60_sub_one :
    to_f64 1152921504606846975 = 1152921504606846976 := by
  have hnat : Nat.log 2 1152921504606846975 = 59 := by
    have h1 : 2^59 ≤ 1152921504606846975 := by norm_num
    have h2 : 1152921504606846975 < 2^(59+1) := by norm_num
    exact Nat.log_eq_of_pow_le_of_lt_pow h1 h2
  have hlog : Int.log 2 ((1152921504606846975:ℕ) : ℚ) = 59 := by
    rw [Int.log_natCast, hnat]
    norm_num
  have hfl : ⌊((1152921504606846975:ℕ) : ℚ) / 2 ^ ((59:ℤ) - 52)⌋
      = 9007199254740991 := by
    rw [Int.floor_eq_iff]
    norm_num
  unfold to_f64 roundQ roundPosQ roundMantissa
  rw [hlog, hfl]
  norm_num

lemma to_f64_pow60 : to_f64 1152921504606846976 = 1152921504606846976 := by
  have hnat : Nat.log 2 1152921504606846976 = 60 := by
    have h1 : 2^60 ≤ 1152921504606846976 := by norm_num
    have h2 : 1152921504606846976 < 2^(60+1) := by norm_num
    exact Nat.log_eq_of_pow_le_of_lt_pow h1 h2
  have hlog : Int.log 2 ((1152921504606846976:ℕ) : ℚ) = 60 := by
    rw [Int.log_natCast, hnat]
    norm_num
  unfold to_f64 roundQ roundPosQ roundMantissa
  rw [hlog]
  norm_num

lemma fdiv_self (a : ℚ) (ha : a ≠ 0) : fdiv a a = 1 := by
  unfold fdiv
  rw [div_self ha, roundQ_one]

lemma fmul_one_hundred : fmul 1 100 = 100 := by
  unfold fmul
  rw [one_mul, roundQ_hundred]

/-- Counterexample to C9 as stated: under the `f64` semantics of the code,
the strictly partial valid count `2^60 - 1` of capacity `2^60` converts to
the same double as `2^60` (binary64 keeps 53 significant bits and `2^60 - 1`
rounds up), so the program's health score is exactly 100 for a valid byte
count strictly below the capacity — not strictly between 0 and 100. -/
theorem C9_health_score_counterexample :
    (generate_report 1152921504606846976 1152921504606846976
        1152921504606846975 0 0 none).health_score = 100 ∧
    0 < (1152921504606846975 : Nat) ∧
    (1152921504606846975 : Nat) < 1152921504606846976 := by
  refine ⟨?_, by norm_num, by norm_num⟩
  rw [generate_report_health_score, if_neg (by norm_num),
    to_f64_pow60_sub_one, to_f64_pow60, fdiv_self _ (by norm_num),
    fmul_one_hundred]
  norm_num

/-- C9 (amended): the health score is 0 when the total capacity is 0;
otherwise it is the `f64` evaluation (round-to-nearest-even at each
conversion and operation) of valid/total × 100 clamped to `[0, 100]`; full
validity scores exactly 100; a partial valid count scores strictly above 0
and at most 100 — but, by rounding, possibly exactly 100; and the score
always lies in `[0, 100]`. -/
theorem C9_health_score_f64 (tc tb vb m r : Nat)
    (s : Option DriveHealthStatus) :
    (tc = 0 → (generate_report tc tb vb m r s).health_score = 0) ∧
    (tc ≠ 0 → (generate_report tc tb vb m r s).health_score
        = min (max (fmul (fdiv (to_f64 vb) (to_f64 tc)) 100) 0) 100) ∧
    (vb = tc → tc ≠ 0 → (generate_report tc tb vb m r s).health_score = 100) ∧
    (0 < vb → vb < tc →
      0 < (generate_report tc tb vb m r s).health_score ∧
        (generate_report tc tb vb m r s).health_score ≤ 100) ∧
    (0 ≤ (generate_report tc tb vb m r s).health_score ∧
      (generate_report tc tb vb m r s).health_score ≤ 100) := by
  refine ⟨?_, ?_, ?_, ?_, ?_⟩
  · intro h
    simp [generate_report_health_score, h]
  · intro h
    simp [generate_report_health_score, h]
  · intro hvb htc
    subst hvb
    rw [generate_report_health_score, if_neg htc,
      fdiv_self _ (ne_of_gt (to_f64_pos vb (Nat.pos_of_ne_zero htc))),
      fmul_one_hundred]
    norm_num
  · intro hvb hlt
    have htc : tc ≠ 0 := by omega
    have hy : (0:ℚ) < fmul (fdiv (to_f64 vb) (to_f64 tc)) 100 :=
      roundQ_pos _ (mul_pos
        (roundQ_pos _ (div_pos (to_f64_pos vb hvb) (to_f64_pos tc (by omega))))
        (by norm_num))
    rw [generate_report_health_score, if_neg htc]
    exact ⟨lt_min (lt_max_iff.mpr (Or.inl hy)) (by norm_num),
      min_le_right _ _⟩
  · rw [generate_report_health_score]
    by_cases htc : tc = 0
    · simp [htc]
    · rw [if_neg htc]
      exact ⟨le_min (le_max_right _ _) (by norm_num), min_le_right _ _⟩

/-- Witness for the amended C9: a fully valid 4096-byte capacity scores
exactly 100. -/
theorem C9_health_score_f64_witness :
    (generate_report 4096 4096 4096 0 0 none).health_score = 100 :=
  (C9_health_score_f64 4096 4096 4096 0 0 none).2.2.1 rfl (by norm_num)

/-- `io_controller/mod.rs::DIRECT_IO_ALIGNMENT`. -/
def DIRECT_IO_ALIGNMENT : Nat := 4096

/-- `direct_io.rs::align_up`. -/
def align_up (value alignment : Nat) : Nat :=
  if alignment = 0 then value
  else (value + alignment - 1) / alignment * alignment

/-- `direct_io.rs::align_down_u64`. -/
def align_down_u64 (value alignment : Nat) : Nat :=
  if alignment = 0 then value else value / alignment * alignment

/-- The IO error kinds the engine distinguishes (`std::io::ErrorKind`). -/
inductive ErrKind where
  | notFound
  | invalidInput
  | writeZero
  | storageFull
  | interrupted
  | other
deriving DecidableEq, Repr

/-- `direct_io.rs::resolve_block_size`. -/
def resolve_block_size (block_size : Nat) : Except ErrKind Nat :=
  if block_size = 0 then Except.error ErrKind.invalidInput
  else Except.ok (align_up block_size DIRECT_IO_ALIGNMENT)

/-- `probe.rs::compute_probe_offsets`: `steps + 1` linearly interpolated
offsets, each aligned down and clamped to the last whole block
(`saturating_mul` is modelled by capping at `u64::MAX`). -/
def compute_probe_offsets (total_bytes block_size steps : Nat) : List Nat :=
  if total_bytes = 0 ∨ block_size = 0 then []
  else
    (List.range (steps + 1)).map (fun step =>
      min (align_down_u64 (min (total_bytes * step) (U64MOD - 1) / steps)
            DIRECT_IO_ALIGNMENT)
        (total_bytes - block_size))

/-- Rust `Vec::dedup` on the tail of a vector: drop elements equal to the
previously kept one. -/
def dedupFrom (prev : Nat) : List Nat → List Nat
  | [] => []
  | b :: rest =>
    if b = prev then dedupFrom prev rest else b :: dedupFrom b rest

/-- Rust `Vec::dedup`: remove consecutive repeated elements. -/
def dedup_consec : List Nat → List Nat
  | [] => []
  | a :: rest => a :: dedupFrom a rest

/-- The anchor list obtained in `probe.rs::run_quick_probe_phase` by
`offsets.sort_unstable(); offsets.dedup();` (sorting modelled by
`mergeSort`). -/
def probe_anchors (total_bytes block_size steps : Nat) : List Nat :=
  dedup_consec
    ((compute_probe_offsets total_bytes block_size steps).mergeSort
      (fun a b => decide (a ≤ b)))

lemma dedupFrom_subset (l : List Nat) : ∀ (p x : Nat),
    x ∈ dedupFrom p l → x ∈ l := by
  induction l with
  | nil => intro p x h; simp [dedupFrom] at h
  | cons b rest ih =>
    intro p x h
    by_cases hb : b = p
    · simp only [dedupFrom, if_pos hb] at h
      exact List.mem_cons_of_mem b (ih p x h)
    · simp only [dedupFrom, if_neg hb, List.mem_cons] at h
      rcases h with rfl | h
      · exact List.mem_cons_self x rest
      · exact List.mem_cons_of_mem b (ih b x h)

lemma dedupFrom_sorted (l : List Nat) : ∀ p : Nat,
    (∀ x ∈ l, p ≤ x) → l.Pairwise (· ≤ ·) →
      (dedupFrom p l).Pairwise (· < ·) ∧ ∀ x ∈ dedupFrom p l, p < x := by
  induction l with
  | nil => intro p _ _; simp [dedupFrom]
  | cons b rest ih =>
    intro p hp hpw
    rw [List.pairwise_cons] at hpw
    by_cases hb : b = p
    · simp only [dedupFrom, if_pos hb]
      exact ih p (fun x hx => hp x (List.mem_cons_of_mem b hx)) hpw.2
    · simp only [dedupFrom, if_neg hb]
      have hpb : p < b :=
        lt_of_le_of_ne (hp b (List.mem_cons_self b rest)) fun h => hb h.symm
      obtain ⟨h1, h2⟩ := ih b hpw.1 hpw.2
      refine ⟨List.pairwise_cons.mpr ⟨h2, h1⟩, ?_⟩
      intro x hx
      rcases List.mem_cons.mp hx with rfl | hx
      · exact hpb
      · exact lt_trans hpb (h2 x hx)

lemma dedup_consec_sorted (l : List Nat) (h : l.Pairwise (· ≤ ·)) :
    (dedup_consec l).Pairwise (· < ·) := by
  cases l with
  | nil => simp [dedup_consec]
  | cons a rest =>
    rw [List.pairwise_cons] at h
    obtain ⟨h1, h2⟩ := dedupFrom_sorted rest a h.1 h.2
    exact List.pairwise_cons.mpr ⟨h2, h1⟩

lemma dedup_consec_subset (l : List Nat) (x : Nat)
    (h : x ∈ dedup_consec l) : x ∈ l := by
  cases l with
  | nil => simp [dedup_consec] at h
  | cons a rest =>
    simp only [dedup_consec, List.mem_cons] at h
    rcases h with rfl | h
    · exact List.mem_cons_self x rest
    · exact List.mem_cons_of_mem a (dedupFrom_subset rest a x h)

lemma mergeSort_le_sorted (l : List Nat) :
    (l.mergeSort (fun a b => decide (a ≤ b))).Pairwise (· ≤ ·) := by
  have h := @List.sorted_mergeSort Nat (fun a b : Nat => decide (a ≤ b))
    (fun a b c hab hbc => by
      simp only [decide_eq_true_eq] at hab hbc ⊢; omega)
    (fun a b => by
      simp only [Bool.or_eq_true, decide_eq_true_eq]; omega) l
  exact h.imp fun hab => by simpa using hab

/-- C8: quick-probe anchor placement.  For an aligned limit of at least one
(aligned, nonzero) block and `steps ≥ 2`, `compute_probe_offsets` produces
`steps + 1` offsets; after the driver's sort-and-dedup every anchor is
4096-aligned and leaves room for one block below the limit, and the anchor
list is strictly sorted (hence duplicate-free). -/
theorem C8_probe_anchor_placement (total_bytes block_size steps : Nat)
    (htal : total_bytes % DIRECT_IO_ALIGNMENT = 0)
    (hbal : block_size % DIRECT_IO_ALIGNMENT = 0)
    (hbpos : 0 < block_size) (hbt : block_size ≤ total_bytes)
    (_hsteps : 2 ≤ steps) :
    (compute_probe_offsets total_bytes block_size steps).length = steps + 1 ∧
    (∀ o ∈ probe_anchors total_bytes block_size steps,
        o % DIRECT_IO_ALIGNMENT = 0 ∧ o + block_size ≤ total_bytes) ∧
    (probe_anchors total_bytes block_size steps).Pairwise (· < ·) := by
  have htpos : 0 < total_bytes := lt_of_lt_of_le hbpos hbt
  have hcond : ¬ (total_bytes = 0 ∨ block_size = 0) := by omega
  refine ⟨?_, ?_, ?_⟩
  · simp [compute_probe_offsets, hcond]
  · intro o ho
    have ho1 : o ∈ (compute_probe_offsets total_bytes block_size steps).mergeSort
        (fun a b => decide (a ≤ b)) := dedup_consec_subset _ o ho
    have ho2 : o ∈ compute_probe_offsets total_bytes block_size steps :=
      (List.mergeSort_perm _ _).mem_iff.mp ho1
    simp only [compute_probe_offsets, if_neg hcond, List.mem_map,
      List.mem_range] at ho2
    obtain ⟨step, _, rfl⟩ := ho2
    have hlast : (total_bytes - block_size) % DIRECT_IO_ALIGNMENT = 0 := by
      simp only [DIRECT_IO_ALIGNMENT] at htal hbal ⊢
      omega
    have haligned : align_down_u64
        (min (total_bytes * step) (U64MOD - 1) / steps) DIRECT_IO_ALIGNMENT
          % DIRECT_IO_ALIGNMENT = 0 := by
      simp [align_down_u64, DIRECT_IO_ALIGNMENT, Nat.mul_mod_left]
    constructor
    · rcases min_choice (align_down_u64
          (min (total_bytes * step) (U64MOD - 1) / steps) DIRECT_IO_ALIGNMENT)
          (total_bytes - block_size) with h | h <;> rw [h]
      · exact haligned
      · exact hlast
    · have := Nat.min_le_right (align_down_u64
          (min (total_bytes * step) (U64MOD - 1) / steps) DIRECT_IO_ALIGNMENT)
          (total_bytes - block_size)
      omega
  · exact dedup_consec_sorted _ (mergeSort_le_sorted _)

/-- Witness for C8 at a 3-step probe over a 16 KiB span with 4 KiB blocks. -/
theorem C8_probe_anchor_placement_witness :
    (compute_probe_offsets 16384 4096 3).length = 4 :=
  (C8_probe_anchor_placement 16384 4096 3 (by decide) (by decide) (by decide)
    (by decide) (by decide)).1

/-- One outcome of a `file.write` call, supplied by the device oracle. -/
inductive WriteOutcome where
  | ok (count : Nat)
  | err (kind : ErrKind)
deriving DecidableEq, Repr

/-- How the inner retry loop of `write.rs::run_write_phase_with_events`
exits: the block was fully written, the device signalled full, or a fatal
write error occurred. -/
inductive BlockExit where
  | done
  | full
  | fatal (kind : ErrKind)
deriving DecidableEq, Repr

/-- The inner `while written < write_len` retry loop of
`write.rs::run_write_phase_with_events` (lines 82–107).  `dev` is the device
oracle, indexed by the running count of `write` calls; returns the advanced
offset, the advanced call count and the exit cause.  (The generated block
content is not observable through the byte-count oracle.) -/
def write_retry (dev : Nat → WriteOutcome) (calls offset written write_len :
    Nat) : Nat × Nat × BlockExit :=
  if written < write_len then
    match dev calls with
    | WriteOutcome.ok 0 => (offset, calls + 1, BlockExit.full)
    | WriteOutcome.ok (c + 1) =>
        write_retry dev (calls + 1) (offset + (c + 1)) (written + (c + 1))
          write_len
    | WriteOutcome.err k =>
        if k = ErrKind.writeZero ∨ k = ErrKind.storageFull then
          (offset, calls + 1, BlockExit.full)
        else (offset, calls + 1, BlockExit.fatal k)
  else (offset, calls, BlockExit.done)
termination_by write_len - written

/-- The outer block loop of `write.rs::run_write_phase_with_events` plus the
final `sync_all` (modelled by `sync`: `none` succeeds, `some k` fails with
kind `k`).  `cancel` is the cancellation token, polled once per iteration;
`none` means the fuel ran out. -/
def write_loop (dev : Nat → WriteOutcome) (cancel : Nat → Bool)
    (sync : Option ErrKind) (limit bs : Nat) :
    Nat → Nat → Nat → Nat → Option (Except ErrKind Nat)
  | 0, offset, _, iter =>
    if offset < limit ∧ cancel iter = false then none
    else
      match sync with
      | none => some (Except.ok offset)
      | some k => some (Except.error k)
  | fuel + 1, offset, calls, iter =>
    if offset < limit ∧ cancel iter = false then
      if limit - offset = 0 then
        match sync with
        | none => some (Except.ok offset)
        | some k => some (Except.error k)
      else
        match (write_retry dev calls offset 0
            (min (limit - offset) bs)).2.2 with
        | BlockExit.done =>
            write_loop dev cancel sync limit bs fuel
              (write_retry dev calls offset 0 (min (limit - offset) bs)).1
              (write_retry dev calls offset 0 (min (limit - offset) bs)).2.1
              (iter + 1)
        | BlockExit.full =>
            match sync with
            | none => some (Except.ok
                (write_retry dev calls offset 0 (min (limit - offset) bs)).1)
            | some k => some (Except.error k)
        | BlockExit.fatal k => some (Except.error k)
    else
      match sync with
      | none => some (Except.ok offset)
      | some k => some (Except.error k)

/-- `write.rs::run_write_phase_with_events`, end to end: parent-directory
precondition, block-size resolution, open (`openRes`: `none` succeeds), limit
alignment, then the block loop and the final sync. -/
def run_write_phase_with_events (parentExists : Bool)
    (openRes : Option ErrKind) (dev : Nat → WriteOutcome)
    (cancel : Nat → Bool) (sync : Option ErrKind)
    (block_size limit_mb fuel : Nat) : Option (Except ErrKind Nat) :=
  if parentExists = false then some (Except.error ErrKind.notFound)
  else
    match resolve_block_size block_size with
    | Except.error k => some (Except.error k)
    | Except.ok bs =>
      match openRes with
      | some k => some (Except.error k)
      | none =>
        let limit_bytes_raw :=
          if limit_mb = 0 then U64MOD - 1
          else (limit_mb * 1024 * 1024) % U64MOD
        let limit_bytes := align_down_u64 limit_bytes_raw
          (DIRECT_IO_ALIGNMENT : Nat)
        if limit_mb > 0 ∧ limit_bytes = 0 then
          some (Except.error ErrKind.invalidInput)
        else write_loop dev cancel sync limit_bytes bs fuel 0 0 0

/-- A device-full signal: a zero-byte write, or a write error of kind
`WriteZero` or `StorageFull` (`write.rs` lines 85–99). -/
def isFullSignal : WriteOutcome → Prop
  | WriteOutcome.ok 0 => True
  | WriteOutcome.ok (_ + 1) => False
  | WriteOutcome.err k => k = ErrKind.writeZero ∨ k = ErrKind.storageFull

/-- C4: device-full is a normal termination of the write phase.  Wherever a
full signal arrives inside a block's retry loop, the retry exits with
`full` and the bytes accumulated so far; the outer loop then ends without
error, performs the sync (whose failure would propagate), and returns
`Ok` with the total bytes written so far. -/
theorem C4_device_full_normal_termination :
    (∀ (dev : Nat → WriteOutcome) (calls offset written write_len : Nat),
      written < write_len → isFullSignal (dev calls) →
        write_retry dev calls offset written write_len
          = (offset, calls + 1, BlockExit.full)) ∧
    (∀ (dev : Nat → WriteOutcome) (cancel : Nat → Bool)
        (sync : Option ErrKind) (limit bs f offset calls iter : Nat),
      offset < limit → cancel iter = false →
      (write_retry dev calls offset 0 (min (limit - offset) bs)).2.2
          = BlockExit.full →
        write_loop dev cancel sync limit bs (f + 1) offset calls iter
          = match sync with
            | none => some (Except.ok
                (write_retry dev calls offset 0 (min (limit - offset) bs)).1)
            | some k => some (Except.error k)) := by
  constructor
  · intro dev calls offset written write_len hlt hfull
    rw [write_retry, if_pos hlt]
    match hdev : dev calls with
    | WriteOutcome.ok 0 => rfl
    | WriteOutcome.ok (c + 1) => rw [hdev] at hfull; simp [isFullSignal] at hfull
    | WriteOutcome.err k =>
        rw [hdev] at hfull
        simp only [isFullSignal] at hfull
        show (if k = ErrKind.writeZero ∨ k = ErrKind.storageFull then
            (offset, calls + 1, BlockExit.full)
          else (offset, calls + 1, BlockExit.fatal k))
          = (offset, calls + 1, BlockExit.full)
        rw [if_pos hfull]
  · intro dev cancel sync limit bs f offset calls iter hlim hcan hfull
    have hrem : ¬ (limit - offset = 0) := by omega
    simp [write_loop, hlim, hcan, hrem, hfull]

/-- Witness for C4: a device that signals full on its first write makes the
retry loop exit `full` with no bytes accumulated. -/
theorem C4_device_full_normal_termination_witness :
    write_retry (fun _ => WriteOutcome.ok 0) 0 0 0 4096
      = (0, 1, BlockExit.full) :=
  C4_device_full_normal_termination.1 (fun _ => WriteOutcome.ok 0) 0 0 0 4096
    (by decide) (by exact trivial)

/-- One outcome of a block `read_exact` call, supplied by the device oracle:
either the block content actually delivered (as a function of the in-block
byte index) or a read failure. -/
inductive ReadOutcome where
  | data (bytes : Nat → Nat)
  | readErr

/-- The sample-status escalation performed on a mismatch in
`verify.rs::run_verify_phase_with_events` (lines 94–117): adopt the new
classification exactly when its severity is strictly higher. -/
def escalate_sample (sample : Option DriveHealthStatus)
    (status : DriveHealthStatus) : Option DriveHealthStatus :=
  match sample with
  | none => some status
  | some existing =>
      if status_severity status > status_severity existing then some status
      else some existing

/-- The block loop of `verify.rs::run_verify_phase_with_events` (lines
46–153), ending in `generate_report`.  `dev` and `seekOk` are the device
oracles (read outcome and recovery-seek success, per iteration), `cancel`
the cancellation token polled per iteration; `none` means the fuel ran
out. -/
def verify_loop (dev : Nat → ReadOutcome) (seekOk cancel : Nat → Bool)
    (total bs : Nat) :
    Nat → Nat → Nat → Nat → Nat → Nat → Option DriveHealthStatus →
      Option DiagnosisReport
  | 0, offset, idx, mismatch, readErrs, valid, sample =>
    if offset < total ∧ cancel idx = false then none
    else some (generate_report total offset valid mismatch readErrs sample)
  | fuel + 1, offset, idx, mismatch, readErrs, valid, sample =>
    if offset < total ∧ cancel idx = false then
      match dev idx with
      | ReadOutcome.readErr =>
          if seekOk idx = false then
            some (generate_report total offset valid mismatch (readErrs + 1)
              sample)
          else
            verify_loop dev seekOk cancel total bs fuel
              (offset + min (total - offset) bs) (idx + 1) mismatch
              (readErrs + 1) valid sample
      | ReadOutcome.data f =>
          match verify_block offset
              ((List.range (min (total - offset) bs)).map f) with
          | none =>
              verify_loop dev seekOk cancel total bs fuel
                (offset + min (total - offset) bs) (idx + 1) mismatch
                readErrs (valid + min (total - offset) bs) sample
          | some _ =>
              verify_loop dev seekOk cancel total bs fuel
                (offset + min (total - offset) bs) (idx + 1) (mismatch + 1)
                readErrs valid
                (match analyze_failure_sample
                    (fill_block offset (min (total - offset) bs))
                    ((List.range (min (total - offset) bs)).map f) with
                 | some st => escalate_sample sample st
                 | none => sample)
    else some (generate_report total offset valid mismatch readErrs sample)

/-- `verify.rs::run_verify_phase_with_events`, end to end: block-size
resolution, the total-bytes alignment check, open (`openRes`: `none`
succeeds), then the block loop. -/
def run_verify_phase_with_events (openRes : Option ErrKind)
    (dev : Nat → ReadOutcome) (seekOk cancel : Nat → Bool)
    (block_size total_bytes fuel : Nat) :
    Option (Except ErrKind DiagnosisReport) :=
  match resolve_block_size block_size with
  | Except.error k => some (Except.error k)
  | Except.ok bs =>
    if total_bytes % (DIRECT_IO_ALIGNMENT : Nat) ≠ 0 then
      some (Except.error ErrKind.invalidInput)
    else
      match openRes with
      | some k => some (Except.error k)
      | none =>
        match verify_loop dev seekOk cancel total_bytes bs fuel 0 0 0 0 0
            none with
        | none => none
        | some rep => some (Except.ok rep)

lemma generate_report_total_capacity (tc tb vb m r : Nat)
    (s : Option DriveHealthStatus) :
    (generate_report tc tb vb m r s).total_capacity = tc := rfl

lemma generate_report_tested_bytes (tc tb vb m r : Nat)
    (s : Option DriveHealthStatus) :
    (generate_report tc tb vb m r s).tested_bytes = tb := rfl

lemma generate_report_valid_bytes (tc tb vb m r : Nat)
    (s : Option DriveHealthStatus) :
    (generate_report tc tb vb m r s).valid_bytes = vb := rfl

/-- With no cancellation and always-recovering seeks, the verify loop always
scans to the end, whatever the per-block read and compare outcomes: it
returns a report over the full requested range. -/
lemma verify_loop_completes (dev : Nat → ReadOutcome)
    (seekOk cancel : Nat → Bool) (total bs : Nat)
    (hc : ∀ i, cancel i = false) (hs : ∀ i, seekOk i = true) (hbs : 0 < bs) :
    ∀ (f offset idx m r v : Nat) (smp : Option DriveHealthStatus),
      offset ≤ total → total - offset ≤ f →
      ∃ m' r' v' smp',
        verify_loop dev seekOk cancel total bs f offset idx m r v smp
          = some (generate_report total total v' m' r' smp') := by
  intro f
  induction f with
  | zero =>
    intro offset idx m r v smp hle hf
    obtain rfl : offset = total := by omega
    refine ⟨m, r, v, smp, ?_⟩
    simp [verify_loop, Nat.lt_irrefl]
  | succ f ih =>
    intro offset idx m r v smp hle hf
    by_cases ho : offset < total
    · have hrl : 0 < min (total - offset) bs := lt_min (by omega) hbs
      have hadv1 : offset + min (total - offset) bs ≤ total := by
        have := Nat.min_le_left (total - offset) bs
        omega
      have hadv2 : total - (offset + min (total - offset) bs) ≤ f := by omega
      simp only [verify_loop, if_pos (And.intro ho (hc idx))]
      cases hdev : dev idx with
      | readErr =>
        simp only [hdev, hs idx, Bool.true_eq_false, if_false]
        exact ih (offset + min (total - offset) bs) (idx + 1) m (r + 1) v smp
          hadv1 hadv2
      | data fb =>
        cases hv : verify_block offset
            ((List.range (min (total - offset) bs)).map fb) with
        | none =>
          simp only [hdev, hv]
          exact ih (offset + min (total - offset) bs) (idx + 1) m r
            (v + min (total - offset) bs) smp hadv1 hadv2
        | some bad =>
          simp only [hdev, hv]
          exact ih (offset + min (total - offset) bs) (idx + 1) (m + 1) r v
            (match analyze_failure_sample
                (fill_block offset (min (total - offset) bs))
                ((List.range (min (total - offset) bs)).map fb) with
             | some st => escalate_sample smp st
             | none => smp) hadv1 hadv2
    · obtain rfl : offset = total := by omega
      refine ⟨m, r, v, smp, ?_⟩
      simp [verify_loop, Nat.lt_irrefl]

/-- Every report the verify loop produces from a state with
`valid ≤ offset ≤ total` keeps `valid_bytes ≤ tested_bytes ≤
total_capacity`. -/
lemma verify_loop_tally_invariant (dev : Nat → ReadOutcome)
    (seekOk cancel : Nat → Bool) (total bs : Nat) :
    ∀ (f offset idx m r v : Nat) (smp : Option DriveHealthStatus)
      (rep : DiagnosisReport), v ≤ offset → offset ≤ total →
      verify_loop dev seekOk cancel total bs f offset idx m r v smp
        = some rep →
      rep.valid_bytes ≤ rep.tested_bytes ∧
        rep.tested_bytes ≤ rep.total_capacity := by
  intro f
  induction f with
  | zero =>
    intro offset idx m r v smp rep hvo hot hrep
    simp only [verify_loop] at hrep
    by_cases hcond : offset < total ∧ cancel idx = false
    · simp [hcond] at hrep
    · simp only [if_neg hcond] at hrep
      obtain rfl := Option.some.inj hrep
      simp only [generate_report_valid_bytes, generate_report_tested_bytes,
        generate_report_total_capacity]
      omega
  | succ f ih =>
    intro offset idx m r v smp rep hvo hot hrep
    simp only [verify_loop] at hrep
    by_cases hcond : offset < total ∧ cancel idx = false
    · rw [if_pos hcond] at hrep
      have hadv1 : offset + min (total - offset) bs ≤ total := by
        have := Nat.min_le_left (total - offset) bs
        omega
      cases hdev : dev idx with
      | readErr =>
        rw [hdev] at hrep
        by_cases hseek : seekOk idx = false
        · rw [if_pos hseek] at hrep
          obtain rfl := Option.some.inj hrep
          simp only [generate_report_valid_bytes, generate_report_tested_bytes,
            generate_report_total_capacity]
          omega
        · rw [if_neg hseek] at hrep
          exact ih (offset + min (total - offset) bs) (idx + 1) m (r + 1) v
            smp rep (by omega) hadv1 hrep
      | data fb =>
        rw [hdev] at hrep
        cases hv : verify_block offset
            ((List.range (min (total - offset) bs)).map fb) with
        | none =>
          simp only [hv] at hrep
          exact ih (offset + min (total - offset) bs) (idx + 1) m r
            (v + min (total - offset) bs) smp rep (by omega) hadv1 hrep
        | some bad =>
          simp only [hv] at hrep
          exact ih (offset + min (total - offset) bs) (idx + 1) (m + 1) r v
            _ rep (by omega) hadv1 hrep
    · simp only [if_neg hcond] at hrep
      obtain rfl := Option.some.inj hrep
      simp only [generate_report_valid_bytes, generate_report_tested_bytes,
        generate_report_total_capacity]
      omega

/-- C5: read-error tolerance of the verify phase.  A failed block read with a
successful recovery seek increments the read-error tally and continues at the
next block boundary; with recovering seeks the scan always reaches the full
requested range regardless of read failures; and when the recovery seek
itself fails the loop exits immediately with a report — still a normal
(`Ok`-shaped) result — whose `tested_bytes` is the offset actually scanned,
less than the requested total. -/
theorem C5_verify_read_error_tolerance :
    (∀ (dev : Nat → ReadOutcome) (seekOk cancel : Nat → Bool)
        (total bs f offset idx m r v : Nat) (smp : Option DriveHealthStatus),
      offset < total → cancel idx = false → dev idx = ReadOutcome.readErr →
      seekOk idx = true →
        verify_loop dev seekOk cancel total bs (f + 1) offset idx m r v smp
          = verify_loop dev seekOk cancel total bs f
              (offset + min (total - offset) bs) (idx + 1) m (r + 1) v smp) ∧
    (∀ (dev : Nat → ReadOutcome) (seekOk cancel : Nat → Bool)
        (total bs f offset idx m r v : Nat) (smp : Option DriveHealthStatus),
      (∀ i, cancel i = false) → (∀ i, seekOk i = true) → 0 < bs →
      offset ≤ total → total - offset ≤ f →
      ∃ m' r' v' smp',
        verify_loop dev seekOk cancel total bs f offset idx m r v smp
          = some (generate_report total total v' m' r' smp')) ∧
    (∀ (dev : Nat → ReadOutcome) (seekOk cancel : Nat → Bool)
        (total bs f offset idx m r v : Nat) (smp : Option DriveHealthStatus),
      offset < total → cancel idx = false → dev idx = ReadOutcome.readErr →
      seekOk idx = false →
        verify_loop dev seekOk cancel total bs (f + 1) offset idx m r v smp
          = some (generate_report total offset v m (r + 1) smp) ∧
        (generate_report total offset v m (r + 1) smp).tested_bytes
          = offset) ∧
    (∀ (openRes : Option ErrKind) (dev : Nat → ReadOutcome)
        (seekOk cancel : Nat → Bool) (block_size total fuel : Nat)
        (rep : DiagnosisReport),
      block_size ≠ 0 → total % (DIRECT_IO_ALIGNMENT : Nat) = 0 →
      openRes = none →
      verify_loop dev seekOk cancel total
          (align_up block_size DIRECT_IO_ALIGNMENT) fuel 0 0 0 0 0 none
        = some rep →
      run_verify_phase_with_events openRes dev seekOk cancel block_size total
          fuel = some (Except.ok rep)) := by
  refine ⟨?_, ?_, ?_, ?_⟩
  · intro dev seekOk cancel total bs f offset idx m r v smp ho hcan hdev hseek
    simp [verify_loop, ho, hcan, hdev, hseek]
  · intro dev seekOk cancel total bs f offset idx m r v smp hc hs hbs hle hf
    exact verify_loop_completes dev seekOk cancel total bs hc hs hbs f offset
      idx m r v smp hle hf
  · intro dev seekOk cancel total bs f offset idx m r v smp ho hcan hdev hseek
    refine ⟨?_, generate_report_tested_bytes total offset v m (r + 1) smp⟩
    simp [verify_loop, ho, hcan, hdev, hseek]
  · intro openRes dev seekOk cancel block_size total fuel rep hbs htal hopen
      hloop
    subst hopen
    simp [run_verify_phase_with_events, resolve_block_size, hbs, htal, hloop]

/-- Witness for C5: a single unreadable 4 KiB block with a failing recovery
seek ends a 8 KiB scan at offset 0 with one read error. -/
theorem C5_verify_read_error_tolerance_witness :
    verify_loop (fun _ => ReadOutcome.readErr) (fun _ => false)
        (fun _ => false) 8192 4096 1 0 0 0 0 0 none
      = some (generate_report 8192 0 0 0 1 none) :=
  ((C5_verify_read_error_tolerance.2.2.1 (fun _ => ReadOutcome.readErr)
    (fun _ => false) (fun _ => false) 8192 4096 0 0 0 0 0 0 none
    (by decide) rfl rfl rfl)).1

/-- C10: tally invariant of the verify phase.  Every report returned by
`run_verify_phase_with_events` satisfies
`valid_bytes ≤ tested_bytes ≤ total_capacity`. -/
theorem C10_verify_tally_invariant (openRes : Option ErrKind)
    (dev : Nat → ReadOutcome) (seekOk cancel : Nat → Bool)
    (block_size total fuel : Nat) (rep : DiagnosisReport)
    (h : run_verify_phase_with_events openRes dev seekOk cancel block_size
        total fuel = some (Except.ok rep)) :
    rep.valid_bytes ≤ rep.tested_bytes ∧
      rep.tested_bytes ≤ rep.total_capacity := by
  by_cases hbs : block_size = 0
  · simp [run_verify_phase_with_events, resolve_block_size, hbs] at h
  · by_cases htal : total % (DIRECT_IO_ALIGNMENT : Nat) = 0
    · cases hopen : openRes with
      | some k =>
        simp [run_verify_phase_with_events, resolve_block_size, hbs, htal,
          hopen] at h
      | none =>
        simp only [run_verify_phase_with_events, resolve_block_size, hbs,
          htal, hopen, if_neg, ite_not] at h
        cases hloop : verify_loop dev seekOk cancel total
            (align_up block_size DIRECT_IO_ALIGNMENT) fuel 0 0 0 0 0 none with
        | none => simp [resolve_block_size, hbs, hloop] at h
        | some rep0 =>
          simp [resolve_block_size, hbs, hloop] at h
          subst h
          exact verify_loop_tally_invariant dev seekOk cancel total
            (align_up block_size DIRECT_IO_ALIGNMENT) fuel 0 0 0 0 0 none rep0
            (by omega) (by omega) hloop
    · simp [run_verify_phase_with_events, resolve_block_size, hbs, htal] at h

/-- Witness for C10: an all-read-error one-block scan returns a report with
`0 ≤ 4096 ≤ 4096`. -/
theorem C10_verify_tally_invariant_witness :
    (generate_report 4096 4096 0 0 1 none).valid_bytes
        ≤ (generate_report 4096 4096 0 0 1 none).tested_bytes ∧
      (generate_report 4096 4096 0 0 1 none).tested_bytes
        ≤ (generate_report 4096 4096 0 0 1 none).total_capacity :=
  C10_verify_tally_invariant none (fun _ => ReadOutcome.readErr)
    (fun _ => true) (fun _ => false) 4096 4096 2
    (generate_report 4096 4096 0 0 1 none) rfl

/-- Counterexample to C3 as stated: with the cancellation token set from the
start, the write phase returns `Ok 0` — a normal result — and not an IO error
of the `interrupted` kind. -/
theorem C3_cancellation_counterexample :
    run_write_phase_with_events true none (fun _ => WriteOutcome.ok 4096)
        (fun _ => true) none 4096 1 20 = some (Except.ok 0) ∧
    (some (Except.ok 0) : Option (Except ErrKind Nat))
        ≠ some (Except.error ErrKind.interrupted) := by
  constructor
  · rfl
  · intro h
    simp at h

/-- C3 amended: when the cancellation token reads true at a loop iteration,
each phase ends as a normal result — the write loop returns `Ok` with the
bytes written so far (after a successful sync) and the verify loop returns
the report over the bytes scanned so far; cancellation is never surfaced by
the phases as an `interrupted` (or any) error. -/
theorem C3_cancellation_normal_result :
    (∀ (dev : Nat → WriteOutcome) (cancel : Nat → Bool)
        (limit bs f offset calls iter : Nat),
      cancel iter = true →
        write_loop dev cancel none limit bs f offset calls iter
          = some (Except.ok offset)) ∧
    (∀ (dev : Nat → ReadOutcome) (seekOk cancel : Nat → Bool)
        (total bs f offset idx m r v : Nat) (smp : Option DriveHealthStatus),
      cancel idx = true →
        verify_loop dev seekOk cancel total bs f offset idx m r v smp
          = some (generate_report total offset v m r smp)) := by
  constructor
  · intro dev cancel limit bs f offset calls iter h
    cases f with
    | zero => simp [write_loop, h]
    | succ f => simp [write_loop, h]
  · intro dev seekOk cancel total bs f offset idx m r v smp h
    cases f with
    | zero => simp [verify_loop, h]
    | succ f => simp [verify_loop, h]

/-- Witness for the amended C3 at a concrete cancelled state. -/
theorem C3_cancellation_normal_result_witness :
    write_loop (fun _ => WriteOutcome.ok 0) (fun _ => true) none 1048576 4096
        5 8192 2 2 = some (Except.ok 8192) :=
  C3_cancellation_normal_result.1 (fun _ => WriteOutcome.ok 0)
    (fun _ => true) 1048576 4096 5 8192 2 2 rfl

end TruthByte
